import Mathlib

/-!
Voice playback stream (`src/audio/stream.cpp`)

A shallow embedding of `AudioStream`: its constructor, destructor, `start`,
`writeData` and the pull callback registered with the audio engine.

* Samples are values of an arbitrary type `α` with a zero; the code only moves
  samples around and stores `0.0f`, it never computes with them.
* Pointers are `Option Nat`: `none` is `nullptr`, `some a` is the address `a`.
  Stream objects live in a heap (`World.streams`) addressed by index.
* The audio engine is an explicit state (`FmodEngine`) holding the user-data
  pointer of every sound, the channels it has started and a log of the calls it
  received.
-/

namespace Globed

/-! ## Engine side -/

/-- Result code of an engine call (a C enum); zero is success. -/
abbrev FMOD_RESULT := Nat

/-- The success code. -/
def FMOD_OK : FMOD_RESULT := 0

/-- Size of one sample in bytes: `sizeof(float)`. -/
def sizeofFloat : Nat := 4

/-- Calls that `stream.cpp` makes into the audio engine and that change its state. -/
inductive EngineCall where
  | createStream (userdata : Nat)
  | playSound (sound : Option Nat)
  | channelStop (channel : Nat)
  | soundRelease (sound : Nat)
  deriving DecidableEq, Repr

/-- State of the audio engine as far as `stream.cpp` can observe or change it.
A sound handle is an index into `soundUserData`, a channel handle is an index
into `channels`. -/
structure FmodEngine where
  /-- user-data pointer stored with each sound object -/
  soundUserData : List (Option Nat)
  /-- for each playback channel started so far, the sound it plays -/
  channels : List (Option Nat)
  /-- calls received, oldest first -/
  log : List EngineCall
  deriving DecidableEq, Repr

/-- `Sound::getUserData`: the pointer stored with the sound. For a handle the
engine does not know, the out-parameter is left as the caller initialised it
(`nullptr` in the callback). -/
def FmodEngine.getUserData (e : FmodEngine) (sound : Nat) : Option Nat :=
  match e.soundUserData[sound]? with
  | some ud => ud
  | none => none

/-- `System::createStream` with `exinfo.userdata = userdata`; `res` is the
result code the engine answers with. On success a new sound object carrying
the user-data pointer exists and its handle is returned. -/
def FmodEngine.createStream (e : FmodEngine) (res : FMOD_RESULT) (userdata : Nat) :
    Option Nat × FmodEngine :=
  if res = FMOD_OK then
    (some e.soundUserData.length,
      { e with soundUserData := e.soundUserData ++ [some userdata],
               log := e.log ++ [EngineCall.createStream userdata] })
  else
    (none, { e with log := e.log ++ [EngineCall.createStream userdata] })

/-- `Channel::stop`. -/
def FmodEngine.channelStop (e : FmodEngine) (channel : Nat) : FmodEngine :=
  { e with log := e.log ++ [EngineCall.channelStop channel] }

/-- `Sound::release`: the call is recorded in the log. What the engine keeps
of a released sound is left open; no statement below reads the user data of a
sound after its release. -/
def FmodEngine.soundRelease (e : FmodEngine) (sound : Nat) : FmodEngine :=
  { e with log := e.log ++ [EngineCall.soundRelease sound] }

/-- Modelled from the spec: `GlobedAudioManager::playSound` (manager.cpp is not
among the sources): "begins playback of the registered sound through the audio
engine, obtaining a playback channel handle". The spec says no more than that
a handle is obtained, so `AudioStream.start` takes the engine's `playSound` as
a parameter; this is one engine, which starts a new channel on every call. -/
def FmodEngine.playSound (e : FmodEngine) (sound : Option Nat) : Option Nat × FmodEngine :=
  (some e.channels.length,
    { e with channels := e.channels ++ [sound],
             log := e.log ++ [EngineCall.playSound sound] })

/-- Modelled from the spec: `GlobedAudioManager::playSound`, a second engine
that fits the same sentence: a sound that a channel already plays keeps that
channel, whose handle is returned again; otherwise a new channel is started. -/
def FmodEngine.playSoundReuse (e : FmodEngine) (sound : Option Nat) :
    Option Nat × FmodEngine :=
  match e.channels.indexOf? sound with
  | some c => (some c, { e with log := e.log ++ [EngineCall.playSound sound] })
  | none => e.playSound sound

/-! ## Sample queue -/

/-- Modelled from the spec: `AudioSampleQueue` (sample_queue.hpp is not among
the sources): an ordered sequence of samples with a bounded capacity. -/
structure AudioSampleQueue (α : Type) where
  buf : List α
  capacity : Nat
  deriving DecidableEq, Repr

/-- Modelled from the spec: `AudioSampleQueue::writeData`: "appends samples to
the buffer"; "incoming overflow samples are discarded" (drop-newest, no
reordering). -/
def AudioSampleQueue.writeData {α : Type} (q : AudioSampleQueue α) (samples : List α) :
    AudioSampleQueue α :=
  { q with buf := q.buf ++ samples.take (q.capacity - q.buf.length) }

/-- Store `src` over the leading cells of `dest`; `dest` keeps its length. -/
def blit {α : Type} : List α → List α → List α
  | x :: xs, _ :: ds => x :: blit xs ds
  | _, ds => ds

/-- Modelled from the spec: `AudioSampleQueue::copyTo`: "copies up to `count`
samples from the front of the buffer into `dest`, removing them from the buffer
(FIFO), and returns the actual number copied". Result: number copied, the
destination afterwards, the queue afterwards. -/
def AudioSampleQueue.copyTo {α : Type} (q : AudioSampleQueue α) (dest : List α) (count : Nat) :
    Nat × List α × AudioSampleQueue α :=
  let total := min count q.buf.length
  (total, blit (q.buf.take total) dest, { q with buf := q.buf.drop total })

/-! ## The stream object -/

/-- Data members of `AudioStream` that `stream.cpp` uses. -/
structure AudioStream (α D : Type) where
  decoder : D
  queue : AudioSampleQueue α
  starving : Bool
  sound : Option Nat
  channel : Option Nat
  deriving DecidableEq, Repr

/-- Heap of stream objects (an address is an index) together with the engine. -/
structure World (α D : Type) where
  streams : List (AudioStream α D)
  engine : FmodEngine
  deriving DecidableEq, Repr

/-- The loop `for (i = copied; i < neededSamples; i++) data[i] = 0.0f`, by the
number of iterations left. -/
def zeroFillLoop {α : Type} [Zero α] : Nat → Nat → List α → List α
  | 0, _, data => data
  | k + 1, i, data => zeroFillLoop k (i + 1) (data.set i 0)

/-- Zero the cells `copied ≤ i < neededSamples` of `data`. -/
def zeroFill {α : Type} [Zero α] (data : List α) (copied neededSamples : Nat) : List α :=
  zeroFillLoop (neededSamples - copied) copied data

/-- The `pcmreadcallback` lambda installed by the constructor. `sound_` is the
sound the engine pulls for, `data` the output buffer, `len` the requested
number of bytes. Result: return code, world afterwards, buffer afterwards;
`none` when the user-data pointer is non-null but addresses no stream object
(the C++ dereference is then undefined). The debug log line is not modelled. -/
def pcmreadcallback {α D : Type} [Zero α] (w : World α D) (sound_ : Nat) (data : List α)
    (len : Nat) : Option (FMOD_RESULT × World α D × List α) :=
  match w.engine.getUserData sound_ with
  | none => some (FMOD_OK, w, data)
  | some p =>
    match w.streams[p]? with
    | none => none
    | some stream =>
      let neededSamples := len / sizeofFloat
      let r := stream.queue.copyTo data neededSamples
      let copied := r.1
      if copied ≠ neededSamples then
        some (FMOD_OK,
          { w with streams := w.streams.set p { stream with queue := r.2.2, starving := true } },
          zeroFill r.2.1 copied neededSamples)
      else
        some (FMOD_OK,
          { w with streams := w.streams.set p { stream with queue := r.2.2, starving := false } },
          r.2.1)

/-- Run a member function of the stream object at address `self`; `none` when
no stream object lives there. -/
def World.call {α D : Type} (w : World α D) (self : Nat)
    (method : AudioStream α D → FmodEngine → AudioStream α D × FmodEngine) :
    Option (World α D) :=
  match w.streams[self]? with
  | none => none
  | some s =>
    let r := method s w.engine
    some { streams := w.streams.set self r.1, engine := r.2 }

/-! ## Construction, destruction, start -/

/-- Modelled from the spec: the `GLOBED_REQUIRE(condition, message)` macro (its
header is not among the sources): when the condition is false an error
carrying `message` is raised, otherwise execution continues. -/
def GLOBED_REQUIRE (condition : Bool) (message : String) : Except String Unit :=
  if condition then Except.ok () else Except.error message

/-- The fields of `exinfo` that matter to the engine state. `cbsize`, `format`,
`length` (a floating-point product of constants declared elsewhere) and the
callback pointer itself (it is `pcmreadcallback`) are not represented. -/
structure FMOD_CREATESOUNDEXINFO where
  numchannels : Nat
  defaultfrequency : Nat
  userdata : Nat
  deriving DecidableEq, Repr

/-- `AudioStream::AudioStream(AudioDecoder&&)`. `self` is the address of the
object under construction, `res` the engine's answer to `createStream`,
`formatFmodError` is `GlobedAudioManager::formatFmodError` and
`VOICE_TARGET_SAMPLERATE`, `queueCapacity` are constants declared elsewhere.
The member initialisers (empty queue, `starving = false`, null handles) are
those of a freshly constructed stream. An `Except.error` is the exception
leaving the constructor. -/
def AudioStream.new {α D : Type} (formatFmodError : FMOD_RESULT → String → String)
    (VOICE_TARGET_SAMPLERATE queueCapacity : Nat) (decoder : D) (self : Nat)
    (e : FmodEngine) (res : FMOD_RESULT) : Except String (AudioStream α D) × FmodEngine :=
  let exinfo : FMOD_CREATESOUNDEXINFO :=
    { numchannels := 1, defaultfrequency := VOICE_TARGET_SAMPLERATE, userdata := self }
  let r := e.createStream res exinfo.userdata
  match GLOBED_REQUIRE (res == FMOD_OK) (formatFmodError res "System::createStream") with
  | Except.error msg => (Except.error msg, r.2)
  | Except.ok _ =>
    (Except.ok { decoder := decoder, queue := { buf := [], capacity := queueCapacity },
                 starving := false, sound := r.1, channel := none }, r.2)

/-- First block of the destructor: `if (channel) { channel->stop(); channel = nullptr; }`. -/
def AudioStream.stopChannel {α D : Type} (s : AudioStream α D) (e : FmodEngine) :
    AudioStream α D × FmodEngine :=
  match s.channel with
  | some c => ({ s with channel := none }, e.channelStop c)
  | none => (s, e)

/-- Second block of the destructor: `if (sound) { sound->release(); sound = nullptr; }`. -/
def AudioStream.releaseSound {α D : Type} (s : AudioStream α D) (e : FmodEngine) :
    AudioStream α D × FmodEngine :=
  match s.sound with
  | some snd => ({ s with sound := none }, e.soundRelease snd)
  | none => (s, e)

/-- Body of `AudioStream::~AudioStream`: the two blocks in program order. -/
def AudioStream.destructor {α D : Type} (s : AudioStream α D) (e : FmodEngine) :
    AudioStream α D × FmodEngine :=
  let r := s.stopChannel e
  r.1.releaseSound r.2

/-- `AudioStream::start`: `this->channel = GlobedAudioManager::get().playSound(sound)`.
`playSound` is the engine's answer to the call: the handle returned and the
engine afterwards. -/
def AudioStream.start {α D E : Type} (playSound : E → Option Nat → Option Nat × E)
    (s : AudioStream α D) (e : E) : AudioStream α D × E :=
  let r := playSound e s.sound
  ({ s with channel := r.1 }, r.2)

/-! ## Producer side -/

/-- `EncodedAudioFrame`: an ordered sequence of encoded sub-frames. -/
structure EncodedAudioFrame (F : Type) where
  frames : List F
  deriving DecidableEq, Repr

/-- `EncodedAudioFrame::getFrames`. -/
def EncodedAudioFrame.getFrames {F : Type} (frame : EncodedAudioFrame F) : List F :=
  frame.frames

/-- Effects of `writeData` on its collaborators, in the order they happen. -/
inductive AudioEffect (α F : Type) where
  | decode (opusFrame : F)
  | queueWrite (decodedFrame : List α)
  | freeData (decodedFrame : List α)
  deriving DecidableEq, Repr

/-- What a run of `writeData` leaves behind: the exception that left the
function (if any), the stream object and the effects performed. -/
structure WriteOutcome (α D F ε : Type) where
  error : Option ε
  stream : AudioStream α D
  trace : List (AudioEffect α F)
  deriving DecidableEq, Repr

/-- The range-for loop of `AudioStream::writeData`. `decode` is
`AudioDecoder::decode` acting on the decoder state: it yields the decoded block
or fails, and the decoder state afterwards. The loop has no handler, so a
failing decode leaves the function at once. -/
def AudioStream.writeDataLoop {α D F ε : Type} (decode : D → F → Except ε (List α) × D) :
    List F → AudioStream α D → List (AudioEffect α F) → WriteOutcome α D F ε
  | [], s, tr => { error := none, stream := s, trace := tr }
  | opusFrame :: rest, s, tr =>
    match decode s.decoder opusFrame with
    | (Except.error err, dec) =>
      { error := some err, stream := { s with decoder := dec },
        trace := tr ++ [AudioEffect.decode opusFrame] }
    | (Except.ok decodedFrame, dec) =>
      AudioStream.writeDataLoop decode rest
        { s with decoder := dec, queue := s.queue.writeData decodedFrame }
        (tr ++ [AudioEffect.decode opusFrame, AudioEffect.queueWrite decodedFrame,
                AudioEffect.freeData decodedFrame])

/-- `AudioStream::writeData`. -/
def AudioStream.writeData {α D F ε : Type} (decode : D → F → Except ε (List α) × D)
    (s : AudioStream α D) (frame : EncodedAudioFrame F) : WriteOutcome α D F ε :=
  AudioStream.writeDataLoop decode frame.getFrames s []

/-! ## Vocabulary of the statements -/

/-- What the decoder answers for each sub-frame of a list when they are decoded
one after the other from decoder state `dec`. -/
def decodeAll {α D F ε : Type} (decode : D → F → Except ε (List α) × D) :
    D → List F → List (Except ε (List α))
  | _, [] => []
  | dec, f :: fs => (decode dec f).1 :: decodeAll decode (decode dec f).2 fs

/-- The decoder state after decoding a list of sub-frames one after the other. -/
def decodeState {α D F ε : Type} (decode : D → F → Except ε (List α) × D) :
    D → List F → D
  | dec, [] => dec
  | dec, f :: fs => decodeState decode (decode dec f).2 fs

/-- The effects of one loop iteration that decodes `f` into `d`. -/
def iterationEffects {α F : Type} (f : F) (d : List α) : List (AudioEffect α F) :=
  [AudioEffect.decode f, AudioEffect.queueWrite d, AudioEffect.freeData d]

/-- The effects of successive successful iterations over sub-frames `fs` with
decoded blocks `ds`. -/
def sequenceEffects {α F : Type} : List F → List (List α) → List (AudioEffect α F)
  | f :: fs, d :: ds => iterationEffects f d ++ sequenceEffects fs ds
  | _, _ => []

/-- A series of `copyTo` calls, each with its own destination buffer and
requested count; gives the samples each call copied out (the first `copied`
cells of its destination) and the queue at the end. -/
def drain {α : Type} : AudioSampleQueue α → List (List α × Nat) →
    List (List α) × AudioSampleQueue α
  | q, [] => ([], q)
  | q, (dest, count) :: rest =>
    let r := q.copyTo dest count
    let t := drain r.2.2 rest
    (r.2.1.take r.1 :: t.1, t.2)

/-! ## Concrete states used to exercise the statements -/

/-- A queue holding the 480 samples 1, 2, ..., 480. -/
def queue480 : AudioSampleQueue Int :=
  { buf := (List.range 480).map (fun i => (i : Int) + 1), capacity := 28800 }

/-- A started stream at address 0 whose sound and channel are handle 0. -/
def stream480 : AudioStream Int Unit :=
  { decoder := (), queue := queue480, starving := false, sound := some 0, channel := some 0 }

/-- An engine with one sound (user data: address 0) played by one channel. -/
def engine1 : FmodEngine :=
  { soundUserData := [some 0], channels := [some 0], log := [] }

/-- The world of `stream480`. -/
def world480 : World Int Unit := { streams := [stream480], engine := engine1 }

/-- An output buffer of 512 stale samples. -/
def buffer512 : List Int := List.replicate 512 (-1)

/-- A started stream with two queued samples. -/
def stream2 : AudioStream Int Unit :=
  { decoder := (), queue := { buf := [5, 6], capacity := 8 }, starving := false,
    sound := some 0, channel := some 0 }

/-- The world of `stream2`. -/
def world2 : World Int Unit := { streams := [stream2], engine := engine1 }

/-- A world with a stream whose sound carries a null user-data pointer. -/
def worldNull : World Int Unit :=
  { streams := [stream2], engine := { soundUserData := [none], channels := [], log := [] } }

/-- A decoder that rejects the sub-frame `0`, decodes any other sub-frame `f`
into the block `[f, n]` where `n` counts the blocks decoded so far. -/
def countingDecode (dec : Nat) (f : Nat) : Except String (List Int) × Nat :=
  if f = 0 then (Except.error "corrupted stream", dec)
  else (Except.ok [(f : Int), (dec : Int)], dec + 1)

/-- A constructed, not yet started stream with an empty queue. -/
def freshStream : AudioStream Int Nat :=
  { decoder := 0, queue := { buf := [], capacity := 8 }, starving := false,
    sound := some 0, channel := none }

/-- An engine with one sound and no channel. -/
def engine0 : FmodEngine :=
  { soundUserData := [some 0], channels := [], log := [] }

/-! ## Basic facts about buffers -/

theorem blit_length {α : Type} (src dest : List α) : (blit src dest).length = dest.length := by
  induction src generalizing dest with
  | nil => cases dest <;> simp [blit]
  | cons x xs ih =>
    cases dest with
    | nil => simp [blit]
    | cons d ds => simp [blit, ih]

theorem blit_eq_append {α : Type} (src dest : List α) (h : src.length ≤ dest.length) :
    blit src dest = src ++ dest.drop src.length := by
  induction src generalizing dest with
  | nil => cases dest <;> simp [blit]
  | cons x xs ih =>
    cases dest with
    | nil => simp at h
    | cons d ds =>
      simp only [List.length_cons, Nat.add_le_add_iff_right] at h
      simp [blit, ih ds h]

theorem zeroFillLoop_length {α : Type} [Zero α] (k i : Nat) (data : List α) :
    (zeroFillLoop k i data).length = data.length := by
  induction k generalizing i data with
  | zero => simp [zeroFillLoop]
  | succ k ih => simp [zeroFillLoop, ih]

theorem zeroFillLoop_getElem? {α : Type} [Zero α] (k i : Nat) (data : List α) (j : Nat) :
    (zeroFillLoop k i data)[j]? =
      if i ≤ j ∧ j < i + k ∧ j < data.length then some 0 else data[j]? := by
  induction k generalizing i data with
  | zero =>
    simp only [zeroFillLoop]
    rw [if_neg (by omega)]
  | succ k ih =>
    simp only [zeroFillLoop, ih, List.length_set]
    by_cases hij : i = j
    · subst hij
      by_cases hl : i < data.length
      · simp [hl, List.getElem?_set]
      · have : ¬ (i + 1 ≤ i ∧ i < i + 1 + k ∧ i < data.length) := by omega
        rw [if_neg this, if_neg (by omega)]
        simp [List.getElem?_set, hl, List.getElem?_eq_none (Nat.le_of_not_lt hl)]
    · by_cases c : i + 1 ≤ j ∧ j < i + 1 + k ∧ j < data.length
      · rw [if_pos c, if_pos (by omega)]
      · rw [if_neg c, if_neg (by omega)]
        simp [List.getElem?_set, hij]

theorem copyTo_count {α : Type} (q : AudioSampleQueue α) (dest : List α) (count : Nat) :
    (q.copyTo dest count).1 = min count q.buf.length := rfl

theorem copyTo_queue {α : Type} (q : AudioSampleQueue α) (dest : List α) (count : Nat) :
    (q.copyTo dest count).2.2.buf = q.buf.drop (min count q.buf.length) := rfl

theorem copyTo_dest_length {α : Type} (q : AudioSampleQueue α) (dest : List α) (count : Nat) :
    (q.copyTo dest count).2.1.length = dest.length := by
  simp [AudioSampleQueue.copyTo, blit_length]

theorem copyTo_dest {α : Type} (q : AudioSampleQueue α) (dest : List α) (count : Nat)
    (h : count ≤ dest.length) :
    (q.copyTo dest count).2.1 =
      q.buf.take (min count q.buf.length) ++ dest.drop (min count q.buf.length) := by
  simp only [AudioSampleQueue.copyTo]
  rw [blit_eq_append]
  · simp
  · simp only [List.length_take]
    omega

theorem copyTo_dest_getElem? {α : Type} (q : AudioSampleQueue α) (dest : List α) (count i : Nat)
    (h : count ≤ dest.length) (hi : i < min count q.buf.length) :
    (q.copyTo dest count).2.1[i]? = q.buf[i]? := by
  rw [copyTo_dest q dest count h]
  rw [List.getElem?_append_left (by simp only [List.length_take]; omega)]
  exact List.getElem?_take_of_lt hi

/-! ## The pull callback -/

/-- C1: for a live stream whose queue holds `k` samples and a pull of `len`
bytes, `n = len / sizeof(float)`, into a buffer of at least `n` cells, the
callback returns `FMOD_OK`, the buffer holds the first `min k n` queued samples
in cells `i < min k n` and `0` in cells `min k n ≤ i < n`. -/
theorem pcmreadcallback_output {α D : Type} [Zero α] (w : World α D) (sound_ p : Nat)
    (stream : AudioStream α D) (data : List α) (len : Nat)
    (hud : w.engine.getUserData sound_ = some p) (hlive : w.streams[p]? = some stream)
    (hbuf : len / sizeofFloat ≤ data.length) :
    ∃ w' data', pcmreadcallback w sound_ data len = some (FMOD_OK, w', data') ∧
      data'.length = data.length ∧
      (∀ i, i < min stream.queue.buf.length (len / sizeofFloat) →
        data'[i]? = stream.queue.buf[i]?) ∧
      (∀ i, min stream.queue.buf.length (len / sizeofFloat) ≤ i → i < len / sizeofFloat →
        data'[i]? = some 0) := by
  simp only [pcmreadcallback, hud, hlive]
  by_cases hc : (stream.queue.copyTo data (len / sizeofFloat)).1 ≠ len / sizeofFloat
  · rw [if_pos hc]
    refine ⟨_, _, rfl, ?_, ?_, ?_⟩
    · simp [zeroFill, zeroFillLoop_length, copyTo_dest_length]
    · intro i hi
      rw [zeroFill, zeroFillLoop_getElem?, copyTo_count, if_neg (by omega)]
      exact copyTo_dest_getElem? _ _ _ _ hbuf (by omega)
    · intro i hi hn
      rw [zeroFill, zeroFillLoop_getElem?, copyTo_count, copyTo_dest_length, if_pos (by omega)]
  · rw [if_neg hc]
    rw [copyTo_count] at hc
    refine ⟨_, _, rfl, ?_, ?_, ?_⟩
    · simp [copyTo_dest_length]
    · intro i hi
      exact copyTo_dest_getElem? _ _ _ _ hbuf (by omega)
    · intro i hi hn
      omega

/-- C1 at the scenario of the specification: 480 queued samples, a pull of
2048 bytes (512 samples) into a buffer of 512 cells. -/
theorem pcmreadcallback_output_witness :
    ∃ w' data', pcmreadcallback world480 0 buffer512 2048 = some (FMOD_OK, w', data') ∧
      data'.length = buffer512.length ∧
      (∀ i, i < min stream480.queue.buf.length (2048 / sizeofFloat) →
        data'[i]? = stream480.queue.buf[i]?) ∧
      (∀ i, min stream480.queue.buf.length (2048 / sizeofFloat) ≤ i → i < 2048 / sizeofFloat →
        data'[i]? = some 0) :=
  pcmreadcallback_output world480 0 0 stream480 buffer512 2048 rfl rfl
    (by rw [buffer512, List.length_replicate]; decide)

set_option maxRecDepth 100000 in
/-- The scenario of the specification evaluated: a pull of 512 samples from a
queue of 480 gives the 480 queued samples followed by 32 zeros, an empty queue
and a raised `starving` flag. -/
theorem pull_512_of_480 :
    pcmreadcallback world480 0 buffer512 2048 =
      some (FMOD_OK,
        { streams := [{ stream480 with starving := true,
                                       queue := { buf := [], capacity := 28800 } }],
          engine := engine1 },
        queue480.buf ++ List.replicate 32 0) := by
  decide

/-- C2: after a pull on a live stream the `starving` flag is true exactly when
the queue held fewer samples than `neededSamples = len / sizeof(float)`,
whatever the flag was before; a pull of exactly the queued amount leaves the
flag false and the queue empty, a pull of a positive amount from an empty queue
leaves the flag true. -/
theorem pcmreadcallback_starving {α D : Type} [Zero α] (w : World α D) (sound_ p : Nat)
    (stream : AudioStream α D) (data : List α) (len : Nat)
    (hud : w.engine.getUserData sound_ = some p) (hlive : w.streams[p]? = some stream) :
    ∃ w' data' stream', pcmreadcallback w sound_ data len = some (FMOD_OK, w', data') ∧
      w'.streams[p]? = some stream' ∧
      (stream'.starving = true ↔ stream.queue.buf.length < len / sizeofFloat) ∧
      (stream.queue.buf.length = len / sizeofFloat →
        stream'.starving = false ∧ stream'.queue.buf = []) ∧
      (stream.queue.buf = [] → 0 < len / sizeofFloat → stream'.starving = true) := by
  have hp : p < w.streams.length := by
    rcases Nat.lt_or_ge p w.streams.length with h | h
    · exact h
    · rw [List.getElem?_eq_none h] at hlive
      cases hlive
  simp only [pcmreadcallback, hud, hlive]
  by_cases hc : (stream.queue.copyTo data (len / sizeofFloat)).1 ≠ len / sizeofFloat
  · rw [if_pos hc]
    rw [copyTo_count] at hc
    refine ⟨_, _, { stream with queue := (stream.queue.copyTo data (len / sizeofFloat)).2.2,
                                starving := true }, rfl, ?_, ?_, ?_, ?_⟩
    · simp only [List.getElem?_set_self hp]
    · simp only [true_iff]
      omega
    · intro h
      omega
    · intro _ _
      rfl
  · rw [if_neg hc]
    rw [copyTo_count] at hc
    refine ⟨_, _, { stream with queue := (stream.queue.copyTo data (len / sizeofFloat)).2.2,
                                starving := false }, rfl, ?_, ?_, ?_, ?_⟩
    · simp only [List.getElem?_set_self hp]
    · simp only [Bool.false_eq_true, false_iff]
      omega
    · intro h
      refine ⟨rfl, ?_⟩
      simp only [copyTo_queue]
      rw [List.drop_eq_nil_iff]
      omega
    · intro h0 hpos
      rw [h0] at hc
      simp at hc
      omega

/-- C2 on a queue holding two samples: pulls of 12 bytes (three samples). -/
theorem pcmreadcallback_starving_witness :
    ∃ w' data' stream', pcmreadcallback world2 0 [9, 9, 9] 12 = some (FMOD_OK, w', data') ∧
      w'.streams[0]? = some stream' ∧
      (stream'.starving = true ↔ stream2.queue.buf.length < 12 / sizeofFloat) ∧
      (stream2.queue.buf.length = 12 / sizeofFloat →
        stream'.starving = false ∧ stream'.queue.buf = []) ∧
      (stream2.queue.buf = [] → 0 < 12 / sizeofFloat → stream'.starving = true) :=
  pcmreadcallback_starving world2 0 0 stream2 [9, 9, 9] 12 rfl rfl

/-- C3: when the sound's user data resolves to no stream, the callback returns
`FMOD_OK` and leaves the output buffer and the whole world (every stream's
queue and `starving` flag, and the engine) as they were. -/
theorem pcmreadcallback_null {α D : Type} [Zero α] (w : World α D) (sound_ : Nat)
    (data : List α) (len : Nat) (hud : w.engine.getUserData sound_ = none) :
    pcmreadcallback w sound_ data len = some (FMOD_OK, w, data) := by
  simp only [pcmreadcallback, hud]

/-- C3 on a sound whose user-data pointer is null. -/
theorem pcmreadcallback_null_witness :
    worldNull.engine.getUserData 0 = none ∧
      pcmreadcallback worldNull 0 [9, 9, 9] 12 = some (FMOD_OK, worldNull, [9, 9, 9]) :=
  ⟨rfl, pcmreadcallback_null worldNull 0 [9, 9, 9] 12 rfl⟩

/-! ## The producer loop -/

theorem decodeAll_append {α D F ε : Type} (decode : D → F → Except ε (List α) × D)
    (dec : D) (fs gs : List F) :
    decodeAll decode dec (fs ++ gs) =
      decodeAll decode dec fs ++ decodeAll decode (decodeState decode dec fs) gs := by
  induction fs generalizing dec with
  | nil => rfl
  | cons f fs ih => simp [decodeAll, decodeState, ih]

theorem decodeAll_length {α D F ε : Type} (decode : D → F → Except ε (List α) × D)
    (dec : D) (fs : List F) : (decodeAll decode dec fs).length = fs.length := by
  induction fs generalizing dec with
  | nil => rfl
  | cons f fs ih => simp [decodeAll, ih]

/-- A prefix of sub-frames that all decode is processed iteration by iteration;
the loop then continues with the remaining sub-frames. -/
theorem writeDataLoop_prefix {α D F ε : Type} (decode : D → F → Except ε (List α) × D)
    (pre rest : List F) (ds : List (List α)) (s : AudioStream α D)
    (tr : List (AudioEffect α F))
    (h : decodeAll decode s.decoder pre = ds.map Except.ok) :
    AudioStream.writeDataLoop decode (pre ++ rest) s tr =
      AudioStream.writeDataLoop decode rest
        { s with decoder := decodeState decode s.decoder pre,
                 queue := ds.foldl AudioSampleQueue.writeData s.queue }
        (tr ++ sequenceEffects pre ds) := by
  induction pre generalizing ds s tr with
  | nil =>
    cases ds with
    | nil => simp [decodeState, sequenceEffects]
    | cons d ds => simp [decodeAll] at h
  | cons f fs ih =>
    cases ds with
    | nil => simp [decodeAll] at h
    | cons d ds =>
      simp only [decodeAll, List.map_cons, List.cons.injEq] at h
      obtain ⟨h1, h2⟩ := h
      rcases hdf : decode s.decoder f with ⟨r, dec⟩
      rw [hdf] at h1 h2
      simp only at h1 h2
      subst h1
      have hi := ih ds { s with decoder := dec, queue := s.queue.writeData d }
        (tr ++ iterationEffects f d) h2
      rw [List.cons_append, AudioStream.writeDataLoop, hdf]
      simp only [iterationEffects] at hi
      simp only [hi, decodeState, hdf, sequenceEffects, iterationEffects, List.foldl_cons,
        List.append_assoc]

/-- C4: when every sub-frame of a frame decodes (into blocks `ds`, in order),
`writeData` performs decode, queue write, free for the first sub-frame, then
for the second, and so on, the queue receives the blocks in sub-frame order
and no error leaves the function; for a frame without sub-frames nothing is
decoded, written or freed. -/
theorem writeData_in_sequence {α D F ε : Type} (decode : D → F → Except ε (List α) × D)
    (s : AudioStream α D) (frame : EncodedAudioFrame F) (ds : List (List α))
    (h : decodeAll decode s.decoder frame.getFrames = ds.map Except.ok) :
    ds.length = frame.getFrames.length ∧
    (s.writeData decode frame).error = none ∧
    (s.writeData decode frame).trace = sequenceEffects frame.getFrames ds ∧
    (s.writeData decode frame).stream.queue = ds.foldl AudioSampleQueue.writeData s.queue ∧
    (frame.getFrames = [] →
      (s.writeData decode frame).trace = [] ∧ (s.writeData decode frame).stream = s) := by
  have hlen : ds.length = frame.getFrames.length := by
    have := congrArg List.length h
    simpa [decodeAll_length] using this.symm
  have hrun := writeDataLoop_prefix decode frame.getFrames [] ds s [] h
  simp only [List.append_nil, List.nil_append] at hrun
  simp only [AudioStream.writeData, hrun, AudioStream.writeDataLoop]
  refine ⟨hlen, trivial, trivial, trivial, ?_⟩
  intro h0
  rw [h0] at hlen
  have hds : ds = [] := List.eq_nil_of_length_eq_zero hlen
  subst hds
  simp [h0, sequenceEffects, decodeState]

/-- C4 on a frame of two sub-frames that both decode. -/
theorem writeData_in_sequence_witness :
    [[(3 : Int), 0], [4, 1]].length = (EncodedAudioFrame.mk [3, 4]).getFrames.length ∧
    (freshStream.writeData countingDecode ⟨[3, 4]⟩).error = none ∧
    (freshStream.writeData countingDecode ⟨[3, 4]⟩).trace =
      sequenceEffects (EncodedAudioFrame.mk [3, 4]).getFrames [[(3 : Int), 0], [4, 1]] ∧
    (freshStream.writeData countingDecode ⟨[3, 4]⟩).stream.queue =
      [[(3 : Int), 0], [4, 1]].foldl AudioSampleQueue.writeData freshStream.queue ∧
    ((EncodedAudioFrame.mk [3, 4]).getFrames = [] →
      (freshStream.writeData countingDecode ⟨[3, 4]⟩).trace = [] ∧
      (freshStream.writeData countingDecode ⟨[3, 4]⟩).stream = freshStream) :=
  writeData_in_sequence countingDecode freshStream ⟨[3, 4]⟩ [[3, 0], [4, 1]] rfl

/-- C5 fails: on the sub-frames 1, 0, 2 where 0 is rejected by the decoder,
the error leaves `writeData`, the last effect is the failed decode and the
sub-frame 2 is neither decoded nor written. -/
theorem writeData_recovery_counterexample :
    (freshStream.writeData countingDecode ⟨[1, 0, 2]⟩).error = some "corrupted stream" ∧
    (freshStream.writeData countingDecode ⟨[1, 0, 2]⟩).trace =
      [AudioEffect.decode 1, AudioEffect.queueWrite [1, 0], AudioEffect.freeData [1, 0],
       AudioEffect.decode 0] ∧
    (freshStream.writeData countingDecode ⟨[1, 0, 2]⟩).stream.queue.buf = [1, 0] := by
  decide

/-- C5 as amended: when the sub-frames before sub-frame `f` decode (into
blocks `ds`) and `f` is rejected with `err`, `writeData` ends with `err`
leaving to the caller; the effects are those of the earlier sub-frames
followed by the failed decode alone, so no later sub-frame is decoded, written
or freed, and the queue holds the earlier blocks only. -/
theorem writeData_decode_failure {α D F ε : Type} (decode : D → F → Except ε (List α) × D)
    (s : AudioStream α D) (pre : List F) (f : F) (post : List F) (ds : List (List α))
    (err : ε)
    (hpre : decodeAll decode s.decoder pre = ds.map Except.ok)
    (hf : (decode (decodeState decode s.decoder pre) f).1 = Except.error err) :
    (s.writeData decode ⟨pre ++ f :: post⟩).error = some err ∧
    (s.writeData decode ⟨pre ++ f :: post⟩).trace =
      sequenceEffects pre ds ++ [AudioEffect.decode f] ∧
    (s.writeData decode ⟨pre ++ f :: post⟩).stream.queue =
      ds.foldl AudioSampleQueue.writeData s.queue := by
  have hrun := writeDataLoop_prefix decode pre (f :: post) ds s [] hpre
  have hd : decode (decodeState decode s.decoder pre) f =
      (Except.error err, (decode (decodeState decode s.decoder pre) f).2) := by
    rw [← hf]
  simp only [AudioStream.writeData, EncodedAudioFrame.getFrames, hrun,
    AudioStream.writeDataLoop]
  rw [hd]
  simp

/-- C5 as amended, on the sub-frames 1, 0, 2 with 0 rejected. -/
theorem writeData_decode_failure_witness :
    (freshStream.writeData countingDecode ⟨[1] ++ 0 :: [2]⟩).error = some "corrupted stream" ∧
    (freshStream.writeData countingDecode ⟨[1] ++ 0 :: [2]⟩).trace =
      sequenceEffects [1] [[(1 : Int), 0]] ++ [AudioEffect.decode 0] ∧
    (freshStream.writeData countingDecode ⟨[1] ++ 0 :: [2]⟩).stream.queue =
      [[(1 : Int), 0]].foldl AudioSampleQueue.writeData freshStream.queue :=
  writeData_decode_failure countingDecode freshStream [1] 0 [2] [[1, 0]] "corrupted stream"
    rfl rfl

/-! ## Destruction -/

/-- C6: the engine calls of the destructor are `channel.stop()` exactly when a
channel handle is held, followed by `sound.release()` exactly when a sound
handle is held, nothing else; afterwards both handles of the stream are null. -/
theorem destructor_order {α D : Type} (s : AudioStream α D) (e : FmodEngine) :
    (s.destructor e).2.log =
      e.log ++
        (match s.channel with
          | some c => [EngineCall.channelStop c]
          | none => []) ++
        (match s.sound with
          | some snd => [EngineCall.soundRelease snd]
          | none => []) ∧
    (s.destructor e).1.channel = none ∧ (s.destructor e).1.sound = none := by
  rcases s with ⟨dec, q, st, snd, ch⟩
  cases ch <;> cases snd <;>
    simp [AudioStream.destructor, AudioStream.stopChannel, AudioStream.releaseSound,
      FmodEngine.channelStop, FmodEngine.soundRelease]

/-- C7 fails: for a started stream whose sound carries the stream's address as
user data, the association is still in place after the destructor's channel
stop, and a pull on that sound at that point, before the release, resolves the
stream, empties its queue and sets its flag. -/
theorem destructor_userdata_counterexample :
    (stream2.stopChannel engine1).2.getUserData 0 = some 0 ∧
    (world2.call 0 AudioStream.stopChannel).bind (fun w => pcmreadcallback w 0 [9, 9, 9] 12) =
      some (FMOD_OK,
        { streams := [{ stream2 with channel := none, starving := true,
                                     queue := { buf := [], capacity := 8 } }],
          engine := engine1.channelStop 0 },
        [5, 6, 0]) := by
  decide

/-- C7 as amended: the destructor makes no engine call other than the channel
stop and the sound release, so it never clears the user-data association;
after its channel stop the lookup on the stream's sound still yields the
stream, and a pull on that sound at that point returns `FMOD_OK` after removing
the first `min k n` samples from the stream's queue and setting its `starving`
flag to `k < n` (`k` samples queued, `n = len / sizeof(float)`). -/
theorem destructor_no_userdata_clear {α D : Type} [Zero α] (w : World α D) (self snd : Nat)
    (s : AudioStream α D) (data : List α) (len : Nat)
    (hlive : w.streams[self]? = some s) (hud : w.engine.getUserData snd = some self) :
    (s.destructor w.engine).2.log =
      w.engine.log ++
        (match s.channel with
          | some c => [EngineCall.channelStop c]
          | none => []) ++
        (match s.sound with
          | some sd => [EngineCall.soundRelease sd]
          | none => []) ∧
    ∃ w1, w.call self AudioStream.stopChannel = some w1 ∧
      w1.engine.getUserData snd = some self ∧
      ∃ w2 data', pcmreadcallback w1 snd data len = some (FMOD_OK, w2, data') ∧
        w2.streams[self]? = some
          { s with channel := none,
                   queue := { s.queue with
                     buf := s.queue.buf.drop (min (len / sizeofFloat) s.queue.buf.length) },
                   starving := decide (s.queue.buf.length < len / sizeofFloat) } := by
  have hp : self < w.streams.length := by
    rcases Nat.lt_or_ge self w.streams.length with h | h
    · exact h
    · rw [List.getElem?_eq_none h] at hlive
      cases hlive
  rcases s with ⟨dec, q, st, so, ch⟩
  refine ⟨?_, ?_⟩
  · cases ch <;> cases so <;>
      simp [AudioStream.destructor, AudioStream.stopChannel, AudioStream.releaseSound,
        FmodEngine.channelStop, FmodEngine.soundRelease]
  · have hstop : ∃ e1 : FmodEngine,
        AudioStream.stopChannel ⟨dec, q, st, so, ch⟩ w.engine = (⟨dec, q, st, so, none⟩, e1) ∧
        e1.getUserData snd = some self := by
      cases ch with
      | none => exact ⟨w.engine, rfl, hud⟩
      | some c => exact ⟨w.engine.channelStop c, rfl, hud⟩
    obtain ⟨e1, he1, hud1⟩ := hstop
    refine ⟨{ streams := w.streams.set self ⟨dec, q, st, so, none⟩, engine := e1 }, ?_, hud1, ?_⟩
    · simp only [World.call, hlive, he1]
    · have hlive1 : (w.streams.set self (⟨dec, q, st, so, none⟩ : AudioStream α D))[self]? =
          some ⟨dec, q, st, so, none⟩ := List.getElem?_set_self hp
      have hp1 : self < (w.streams.set self (⟨dec, q, st, so, none⟩ : AudioStream α D)).length := by
        simpa using hp
      simp only [pcmreadcallback, hud1, hlive1]
      by_cases hc : (q.copyTo data (len / sizeofFloat)).1 ≠ len / sizeofFloat
      · rw [if_pos hc]
        rw [copyTo_count] at hc
        refine ⟨_, _, rfl, ?_⟩
        simp only [List.getElem?_set_self hp1, AudioSampleQueue.copyTo]
        have hlt : q.buf.length < len / sizeofFloat := by omega
        simp [hlt]
      · rw [if_neg hc]
        rw [copyTo_count] at hc
        refine ⟨_, _, rfl, ?_⟩
        simp only [List.getElem?_set_self hp1, AudioSampleQueue.copyTo]
        have hlt : ¬ q.buf.length < len / sizeofFloat := by omega
        simp [hlt]

/-- C7 as amended, on a started stream with two queued samples and a pull of
three. -/
theorem destructor_no_userdata_clear_witness :
    (stream2.destructor world2.engine).2.log =
      world2.engine.log ++
        (match stream2.channel with
          | some c => [EngineCall.channelStop c]
          | none => []) ++
        (match stream2.sound with
          | some sd => [EngineCall.soundRelease sd]
          | none => []) ∧
    ∃ w1, world2.call 0 AudioStream.stopChannel = some w1 ∧
      w1.engine.getUserData 0 = some 0 ∧
      ∃ w2 data', pcmreadcallback w1 0 [9, 9, 9] 12 = some (FMOD_OK, w2, data') ∧
        w2.streams[0]? = some
          { stream2 with
            channel := none,
            queue := { stream2.queue with
              buf := stream2.queue.buf.drop (min (12 / sizeofFloat) stream2.queue.buf.length) },
            starving := decide (stream2.queue.buf.length < 12 / sizeofFloat) } :=
  destructor_no_userdata_clear world2 0 0 stream2 [9, 9, 9] 12 rfl rfl

/-! ## The queue seen through the stream -/

theorem writeData_fits {α : Type} (q : AudioSampleQueue α) (samples : List α)
    (h : q.buf.length + samples.length ≤ q.capacity) :
    q.writeData samples = { q with buf := q.buf ++ samples } := by
  simp only [AudioSampleQueue.writeData]
  rw [List.take_of_length_le (by omega)]

theorem foldl_writeData_fits {α : Type} (blocks : List (List α)) (q : AudioSampleQueue α)
    (h : q.buf.length + blocks.flatten.length ≤ q.capacity) :
    blocks.foldl AudioSampleQueue.writeData q = { q with buf := q.buf ++ blocks.flatten } := by
  induction blocks generalizing q with
  | nil => simp
  | cons b bs ih =>
    simp only [List.flatten_cons, List.length_append] at h
    rw [List.foldl_cons, writeData_fits q b (by omega), ih]
    · simp
    · simp only [List.length_append]
      omega

theorem drain_exact {α : Type} (reads : List (List α × Nat)) (q : AudioSampleQueue α)
    (hsum : (reads.map Prod.snd).sum = q.buf.length)
    (hroom : ∀ r ∈ reads, r.2 ≤ r.1.length) :
    (drain q reads).1.flatten = q.buf ∧ (drain q reads).2.buf = [] := by
  induction reads generalizing q with
  | nil =>
    simp only [List.map_nil, List.sum_nil] at hsum
    simp [drain, List.eq_nil_of_length_eq_zero hsum.symm]
  | cons r rs ih =>
    rcases r with ⟨dest, count⟩
    simp only [List.map_cons, List.sum_cons] at hsum
    have hr : count ≤ dest.length := hroom (dest, count) (List.mem_cons_self _ _)
    have hmin : min count q.buf.length = count := by omega
    have hrest := ih (q.copyTo dest count).2.2
      (by rw [copyTo_queue, List.length_drop]; omega)
      (fun r hmem => hroom r (List.mem_cons_of_mem _ hmem))
    simp only [drain, List.flatten_cons, hrest.1, hrest.2, and_true]
    rw [copyTo_dest q dest count hr, copyTo_count, copyTo_queue, hmin]
    rw [List.take_append_of_le_length (by simp only [List.length_take]; omega)]
    rw [List.take_take, Nat.min_self, List.take_append_drop]

/-- C8: blocks written to an empty queue whose total length is at most the
capacity, followed by `copyTo` calls whose requested counts total the same
length (each into a buffer with room for its count): the samples copied out,
concatenated, are the blocks written, concatenated, and the queue ends empty. -/
theorem queue_fifo_round_trip {α : Type} (capacity : Nat) (blocks : List (List α))
    (reads : List (List α × Nat))
    (hcap : blocks.flatten.length ≤ capacity)
    (hsum : (reads.map Prod.snd).sum = blocks.flatten.length)
    (hroom : ∀ r ∈ reads, r.2 ≤ r.1.length) :
    (drain (blocks.foldl AudioSampleQueue.writeData { buf := [], capacity := capacity })
      reads).1.flatten = blocks.flatten ∧
    (drain (blocks.foldl AudioSampleQueue.writeData { buf := [], capacity := capacity })
      reads).2.buf = [] := by
  rw [foldl_writeData_fits blocks _ (by simpa using hcap)]
  simpa using drain_exact reads { buf := [] ++ blocks.flatten, capacity := capacity }
    (by simpa using hsum) hroom

/-- C8 on two blocks of two and three samples read back as one and four. -/
theorem queue_fifo_round_trip_witness :
    (drain ([[(1 : Int), 2], [3, 4, 5]].foldl AudioSampleQueue.writeData
      { buf := [], capacity := 8 }) [([0], 1), ([0, 0, 0, 0, 0], 4)]).1.flatten =
      [[(1 : Int), 2], [3, 4, 5]].flatten ∧
    (drain ([[(1 : Int), 2], [3, 4, 5]].foldl AudioSampleQueue.writeData
      { buf := [], capacity := 8 }) [([0], 1), ([0, 0, 0, 0, 0], 4)]).2.buf = [] :=
  queue_fifo_round_trip 8 [[1, 2], [3, 4, 5]] [([0], 1), ([0, 0, 0, 0, 0], 4)]
    (by decide) (by decide) (by decide)

/-! ## Construction and start -/

/-- C9: the constructor raises an error exactly when the engine's answer to
`createStream` is not `FMOD_OK`, the error then carries the message formatted
from the result code and "System::createStream"; it completes with a stream
exactly when the answer is `FMOD_OK`. -/
theorem constructor_fails_iff {α D : Type} (formatFmodError : FMOD_RESULT → String → String)
    (VOICE_TARGET_SAMPLERATE queueCapacity : Nat) (decoder : D) (self : Nat) (e : FmodEngine)
    (res : FMOD_RESULT) :
    ((∃ msg, (AudioStream.new formatFmodError VOICE_TARGET_SAMPLERATE queueCapacity decoder
        self e res : Except String (AudioStream α D) × FmodEngine).1 = Except.error msg) ↔
      res ≠ FMOD_OK) ∧
    ((AudioStream.new formatFmodError VOICE_TARGET_SAMPLERATE queueCapacity decoder
        self e res : Except String (AudioStream α D) × FmodEngine).1 =
        Except.error (formatFmodError res "System::createStream") ↔ res ≠ FMOD_OK) ∧
    ((∃ s, (AudioStream.new formatFmodError VOICE_TARGET_SAMPLERATE queueCapacity decoder
        self e res : Except String (AudioStream α D) × FmodEngine).1 = Except.ok s) ↔
      res = FMOD_OK) := by
  by_cases h : res = FMOD_OK
  · simp [AudioStream.new, GLOBED_REQUIRE, h]
  · simp [AudioStream.new, GLOBED_REQUIRE, h]

/-- On an engine whose `playSound` gives back the channel that already plays
the sound, the same `start` called twice leaves the stream and the channels as
one call does. -/
theorem start_twice_reuse_engine :
    ((freshStream.start FmodEngine.playSoundReuse engine0).1.start FmodEngine.playSoundReuse
      (freshStream.start FmodEngine.playSoundReuse engine0).2).1 =
      (freshStream.start FmodEngine.playSoundReuse engine0).1 ∧
    ((freshStream.start FmodEngine.playSoundReuse engine0).1.start FmodEngine.playSoundReuse
      (freshStream.start FmodEngine.playSoundReuse engine0).2).2.channels =
      (freshStream.start FmodEngine.playSoundReuse engine0).2.channels := by
  decide

end Globed
